import Mathlib

/-!
Verification development for the `tradet` procedural tree generator.

The TypeScript sources are shallowly embedded over exact rational arithmetic.
Machine floating point numbers are modelled as `ℚ`; the transcendental
library functions (`Math.sqrt`, `Math.sin`, `Math.cos`, `Math.atan2`,
`Math.PI`) are not algebraic over `ℚ`, so every embedded function takes a
`MathOracle` that supplies rational-valued versions of them.  Theorems that
do not depend on the actual values of these functions quantify over all
oracles; concrete evaluations instantiate the oracle explicitly.
-/

namespace Tradet

/-- Rational-valued stand-ins for the `Math.*` functions used by the source. -/
structure MathOracle where
  pi : ℚ
  sqrt : ℚ → ℚ
  sin : ℚ → ℚ
  cos : ℚ → ℚ
  atan2 : ℚ → ℚ → ℚ

/-- three.js `Vector3` over exact rationals. -/
structure Vec3 where
  x : ℚ
  y : ℚ
  z : ℚ
deriving DecidableEq, Repr

def Vec3.add (a b : Vec3) : Vec3 := ⟨a.x + b.x, a.y + b.y, a.z + b.z⟩

def Vec3.sub (a b : Vec3) : Vec3 := ⟨a.x - b.x, a.y - b.y, a.z - b.z⟩

/-- `Vector3.multiplyScalar`. -/
def Vec3.scale (a : Vec3) (k : ℚ) : Vec3 := ⟨a.x * k, a.y * k, a.z * k⟩

/-- `Vector3.crossVectors`. -/
def Vec3.cross (a b : Vec3) : Vec3 :=
  ⟨a.y * b.z - a.z * b.y, a.z * b.x - a.x * b.z, a.x * b.y - a.y * b.x⟩

def Vec3.lengthSq (a : Vec3) : ℚ := a.x * a.x + a.y * a.y + a.z * a.z

/-- `Vector3.length` (`Math.sqrt` through the oracle). -/
def Vec3.len (o : MathOracle) (a : Vec3) : ℚ := o.sqrt a.lengthSq

/-- `Vector3.normalize`: three.js divides by `this.length() || 1`, so a
vector whose computed length is `0` is returned unchanged. -/
def Vec3.normalize (o : MathOracle) (a : Vec3) : Vec3 :=
  let l := Vec3.len o a
  let d := if l = 0 then 1 else l
  ⟨a.x / d, a.y / d, a.z / d⟩

/-- `Vector3.lerp(v, alpha)`: `this + (v - this) * alpha`. -/
def Vec3.lerp (a b : Vec3) (t : ℚ) : Vec3 :=
  ⟨a.x + (b.x - a.x) * t, a.y + (b.y - a.y) * t, a.z + (b.z - a.z) * t⟩

/-- `BranchSegment` from `realisticTree.ts` (`end` is a Lean keyword, so the
second point is called `endPoint` here). -/
structure BranchSegment where
  start : Vec3
  endPoint : Vec3
  r1 : ℚ
  r2 : ℚ
deriving DecidableEq, Repr

inductive CrownShape where
  | oval | dome | pyramidal | spreading | umbrella
deriving DecidableEq, Repr

/-- `TreePreset` from `realisticTree.ts`.  `branchAngleBase` is built from
`Math.PI`, so the concrete presets take the oracle. -/
structure TreePreset where
  trunkHeightRatio : ℚ
  trunkDiameterRatio : ℚ
  branchAngleBase : ℚ
  branchAngleVariation : ℚ
  radiusDecay : ℚ
  lengthDecay : ℚ
  crownShape : CrownShape
  maxBranchLevels : ℕ
  terminalBranchCount : ℕ
  leaderRatio : ℚ
  terminalCurvature : ℚ
  branchesPerLevel : ℕ
deriving DecidableEq, Repr

def presetLinden (o : MathOracle) : TreePreset :=
  { trunkHeightRatio := 0.30, trunkDiameterRatio := 0.028
    branchAngleBase := o.pi / 4, branchAngleVariation := 0.30
    radiusDecay := 0.58, lengthDecay := 0.75, crownShape := .oval
    maxBranchLevels := 7, terminalBranchCount := 3, leaderRatio := 0.90
    terminalCurvature := 0.08, branchesPerLevel := 6 }

def presetOak (o : MathOracle) : TreePreset :=
  { trunkHeightRatio := 0.25, trunkDiameterRatio := 0.045
    branchAngleBase := o.pi / 3, branchAngleVariation := 0.40
    radiusDecay := 0.58, lengthDecay := 0.70, crownShape := .dome
    maxBranchLevels := 5, terminalBranchCount := 3, leaderRatio := 0.80
    terminalCurvature := 0.10, branchesPerLevel := 5 }

def presetBirch (o : MathOracle) : TreePreset :=
  { trunkHeightRatio := 0.40, trunkDiameterRatio := 0.022
    branchAngleBase := o.pi / 3.5, branchAngleVariation := 0.30
    radiusDecay := 0.60, lengthDecay := 0.72, crownShape := .dome
    maxBranchLevels := 6, terminalBranchCount := 3, leaderRatio := 0.85
    terminalCurvature := 0.18, branchesPerLevel := 5 }

def presetSpruce (o : MathOracle) : TreePreset :=
  { trunkHeightRatio := 0.02, trunkDiameterRatio := 0.016
    branchAngleBase := o.pi / 2.0, branchAngleVariation := 0.03
    radiusDecay := 0.50, lengthDecay := 0.92, crownShape := .pyramidal
    maxBranchLevels := 3, terminalBranchCount := 2, leaderRatio := 1.0
    terminalCurvature := -0.08, branchesPerLevel := 8 }

def presetPine (o : MathOracle) : TreePreset :=
  { trunkHeightRatio := 0.50, trunkDiameterRatio := 0.012
    branchAngleBase := o.pi / 2.3, branchAngleVariation := 0.40
    radiusDecay := 0.58, lengthDecay := 0.72, crownShape := .umbrella
    maxBranchLevels := 5, terminalBranchCount := 3, leaderRatio := 0.50
    terminalCurvature := 0.06, branchesPerLevel := 6 }

/-- `TREE_PRESETS` name lookup. -/
def TREE_PRESETS (o : MathOracle) (name : String) : Option TreePreset :=
  if name = "linden" then some (presetLinden o)
  else if name = "oak" then some (presetOak o)
  else if name = "birch" then some (presetBirch o)
  else if name = "spruce" then some (presetSpruce o)
  else if name = "pine" then some (presetPine o)
  else none

/-- `TREE_PRESETS[params.preset ?? 'linden'] || TREE_PRESETS.linden`. -/
def presetFor (o : MathOracle) (name : Option String) : TreePreset :=
  (TREE_PRESETS o (name.getD "linden")).getD (presetLinden o)

/-- `AgeModifiers` from `realisticTree.ts`. -/
structure AgeModifiers where
  trunkThicknessMultiplier : ℚ
  branchDensityMultiplier : ℚ
  irregularity : ℚ
  maxLevelsAdjust : ℤ
deriving DecidableEq, Repr

def ageYoung : AgeModifiers :=
  { trunkThicknessMultiplier := 0.6, branchDensityMultiplier := 0.7
    irregularity := 0.1, maxLevelsAdjust := -2 }

def ageMature : AgeModifiers :=
  { trunkThicknessMultiplier := 1.0, branchDensityMultiplier := 1.0
    irregularity := 0.2, maxLevelsAdjust := 0 }

def ageOld : AgeModifiers :=
  { trunkThicknessMultiplier := 1.4, branchDensityMultiplier := 1.3
    irregularity := 0.4, maxLevelsAdjust := 1 }

/-- `AGE_MODIFIERS` name lookup. -/
def AGE_MODIFIERS (name : String) : Option AgeModifiers :=
  if name = "young" then some ageYoung
  else if name = "mature" then some ageMature
  else if name = "old" then some ageOld
  else none

/-- `AGE_MODIFIERS[params.age ?? 'mature'] || AGE_MODIFIERS.mature`. -/
def ageFor (name : Option String) : AgeModifiers :=
  (AGE_MODIFIERS (name.getD "mature")).getD ageMature

/-- `CrownEnvelope` from `realisticTree.ts`. -/
structure CrownEnvelope where
  center : Vec3
  radiusX : ℚ
  radiusY : ℚ
  radiusZ : ℚ
deriving DecidableEq, Repr

/-- The linear congruential generator:
`this.seed = (this.seed * 1103515245 + 12345) & 0x7fffffff`.
Exact integer semantics; the JS float rounding of the intermediate product is
not modelled (it does not matter for any claim proved here). -/
def nextSeed (s : ℕ) : ℕ := (s * 1103515245 + 12345) % 2147483648

/-- The value `random()` returns for the (already advanced) seed `s`:
`this.seed / 0x7fffffff`. -/
def randQ (s : ℕ) : ℚ := (s : ℚ) / 2147483647

/-- `randomRange(min, max) = min + random() * (max - min)` where `s` is the
seed after the `random()` step. -/
def rrVal (s : ℕ) (a b : ℚ) : ℚ := a + randQ s * (b - a)

/-- `getDirectionTowardSurface`. -/
def getDirectionTowardSurface (o : MathOracle) (env : CrownEnvelope) (point : Vec3) : Vec3 :=
  let toPoint := point.sub env.center
  let scaledDir : Vec3 := ⟨toPoint.x / env.radiusX, toPoint.y / env.radiusY, toPoint.z / env.radiusZ⟩
  Vec3.normalize o scaledDir

/-- `distanceToCrownSurface` (0 = at surface, negative = inside,
positive = outside).  `generateTree` always installs the envelope before any
branch generation, so the embedded form takes it as a parameter. -/
def distanceToCrownSurface (o : MathOracle) (env : CrownEnvelope) (point : Vec3) : ℚ :=
  let dx := (point.x - env.center.x) / env.radiusX
  let dy := (point.y - env.center.y) / env.radiusY
  let dz := (point.z - env.center.z) / env.radiusZ
  o.sqrt (dx * dx + dy * dy + dz * dz) - 1.0

/-- `getCrownRadiusAtHeight` (the crown-shape switching version). -/
def getCrownRadiusAtHeight (o : MathOracle) (pre : TreePreset)
    (y crownBase crownTop maxRadius : ℚ) : ℚ :=
  if y < crownBase ∨ crownTop < y then 0
  else
    let crownHeight := crownTop - crownBase
    let normalizedY := (y - crownBase) / crownHeight
    let shapeMultiplier :=
      match pre.crownShape with
      | .pyramidal => 1.0 - normalizedY * 0.9
      | .umbrella => 0.2 + normalizedY * 0.8
      | .dome => o.sin (normalizedY * o.pi * 0.8 + 0.2)
      | .oval => o.sin (normalizedY * o.pi)
      | .spreading => o.sin (normalizedY * o.pi)
    maxRadius * shapeMultiplier

/-- `calculateBranchDirection`. -/
def calculateBranchDirection (o : MathOracle) (parentDir : Vec3) (theta phi : ℚ) : Vec3 :=
  let up := Vec3.normalize o parentDir
  let arbitrary : Vec3 := if |up.y| < 0.9 then ⟨0, 1, 0⟩ else ⟨1, 0, 0⟩
  let right := Vec3.normalize o (Vec3.cross up arbitrary)
  let forward := Vec3.normalize o (Vec3.cross right up)
  let rotatedRight := (right.scale (o.cos phi)).add (forward.scale (o.sin phi))
  let branchDir := (up.scale (o.cos theta)).add (rotatedRight.scale (o.sin theta))
  Vec3.normalize o branchDir

/-- The child-spawning loop at the tail of `generateBranchWithEnvelope`
(`for (let i = 0; i < numChildren; i++) { ... }`).  `goChild` is the
recursive call at `depth + 1`; `remaining` counts the iterations still to
run and `i` is the current loop index. -/
def childLoop (o : MathOracle) (pre : TreePreset) (env : CrownEnvelope)
    (goChild : Vec3 → Vec3 → ℚ → ℚ → ℕ → List BranchSegment × ℕ)
    (direction endPoint : Vec3) (childRadius childLength minRadius : ℚ)
    (depth maxLevels : ℕ) : ℕ → ℕ → ℕ → List BranchSegment × ℕ
  | 0, _, seed => ([], seed)
  | remaining + 1, i, seed =>
    let goldenAngle := o.pi * (3 - o.sqrt 5)
    let sPhi := nextSeed seed
    let phi := (i : ℚ) * goldenAngle + rrVal sPhi (-0.6) 0.6
    let depthFactor := 1 - ((depth : ℚ) / (maxLevels : ℚ)) * 0.35
    let sTheta := nextSeed sPhi
    let theta := pre.branchAngleBase * 0.55 * depthFactor +
      rrVal sTheta (-(pre.branchAngleVariation * 0.6)) (pre.branchAngleVariation * 0.6)
    let isNearTerminal := (maxLevels : ℤ) - 2 ≤ (depth : ℤ)
    let surfaceDir := getDirectionTowardSurface o env endPoint
    let childDir0 := calculateBranchDirection o direction theta phi
    let childDir1 :=
      if isNearTerminal then Vec3.normalize o (Vec3.lerp childDir0 surfaceDir 0.35)
      else childDir0
    let curvature := if pre.terminalCurvature = 0 then 0.1 else pre.terminalCurvature
    let curvatureStrength := curvature * (0.5 + (depth : ℚ) * 0.15)
    let childDir := Vec3.normalize o ⟨childDir1.x, childDir1.y + curvatureStrength, childDir1.z⟩
    let sLen := nextSeed sTheta
    let actualLength := childLength * rrVal sLen 0.75 1.25
    let sRad := nextSeed sLen
    let actualRadius := max (childRadius * rrVal sRad 0.9 1.1) minRadius
    let res := goChild endPoint childDir actualRadius actualLength sRad
    let rest := childLoop o pre env goChild direction endPoint childRadius childLength
      minRadius depth maxLevels remaining (i + 1) res.2
    (res.1 ++ rest.1, rest.2)

/-- `generateBranchWithEnvelope`.  The source recursion is bounded by the
`depth >= maxLevels` guard; the embedding adds an explicit `fuel` argument
(strictly decreasing along each recursive call) to make the recursion
structural.  The top-level call passes `fuel = maxLevels` with `depth = 0`,
so fuel runs out exactly when the source guard fires — and both cases
return `([], seed)`, so the two cut-offs agree. -/
def genBranch (o : MathOracle) (pre : TreePreset) (env : CrownEnvelope) :
    ℕ → Vec3 → Vec3 → ℚ → ℚ → ℕ → ℚ → ℕ → ℕ → List BranchSegment × ℕ
  | 0, _, _, _, _, _, _, _, seed => ([], seed)
  | fuel + 1, origin, direction, radius, length, depth, minRadius, maxLevels, seed =>
    if maxLevels ≤ depth then ([], seed)
    else if radius < minRadius then ([], seed)
    else if length < 0.04 then ([], seed)
    else
      let endPoint0 := origin.add (direction.scale length)
      let dist := distanceToCrownSurface o env endPoint0
      let endPoint :=
        if 0 < dist then
          -- source: endPoint.copy(origin).lerp(endPoint, factor);
          -- after `copy`, the receiver already holds `origin`, and the lerp
          -- argument is that same (already overwritten) object, so the lerp
          -- target coincides with the receiver.
          let currentDistFromCenter := Vec3.len o (endPoint0.sub env.center)
          let targetDist := currentDistFromCenter / (1.0 + dist)
          let factor := targetDist / currentDistFromCenter
          let e1 := origin
          Vec3.lerp e1 e1 factor
        else endPoint0
      let endRadius := radius * 0.85
      let seg : BranchSegment := ⟨origin, endPoint, radius, endRadius⟩
      let s1 := if depth < 2 then nextSeed seed else seed
      let baseChildren : ℕ :=
        if depth < 2 then (⌊(3 + randQ s1 : ℚ)⌋).toNat else pre.terminalBranchCount
      let numChildren := min baseChildren 4
      let childRadius := radius * pre.radiusDecay
      let childLength := length * pre.lengthDecay
      let rest := childLoop o pre env
        (fun corigin cdir cradius clength cseed =>
          genBranch o pre env fuel corigin cdir cradius clength (depth + 1) minRadius maxLevels cseed)
        direction endPoint childRadius childLength minRadius depth maxLevels numChildren 0 s1
      (seg :: rest.1, rest.2)

/-- The parameter record of `RealisticTreeGenerator.generateTree` (second,
override-capable version). -/
structure GenParams where
  treeHeight : ℚ
  minRadius : ℚ
  seed : Option ℕ
  preset : Option String
  age : Option String
  crownWidth : Option ℚ
  trunkHeight : Option ℚ
  crownDensity : Option ℚ
deriving DecidableEq, Repr

def effectiveTrunkHeightOf (o : MathOracle) (p : GenParams) : ℚ :=
  p.trunkHeight.getD (presetFor o p.preset).trunkHeightRatio

def baseOfCrownOf (o : MathOracle) (p : GenParams) : ℚ :=
  p.treeHeight * effectiveTrunkHeightOf o p

def crownHeightOf (o : MathOracle) (p : GenParams) : ℚ :=
  p.treeHeight - baseOfCrownOf o p

def crownMaxRadiusOf (o : MathOracle) (p : GenParams) : ℚ :=
  crownHeightOf o p * 0.4 * (p.crownWidth.getD 1.0)

/-- The ellipsoid `this.crownEnvelope` installed by `generateTree`. -/
def crownEnvelopeOf (o : MathOracle) (p : GenParams) : CrownEnvelope :=
  { center := ⟨0, baseOfCrownOf o p + crownHeightOf o p * 0.48, 0⟩
    radiusX := crownMaxRadiusOf o p
    radiusY := crownHeightOf o p * 0.48
    radiusZ := crownMaxRadiusOf o p }

/-- The trunk radius computed by `generateTree` (conifers use total tree
height as the base, deciduous trees use the base of the crown). -/
def trunkRadiusOf (o : MathOracle) (p : GenParams) : ℚ :=
  let pre := presetFor o p.preset
  let isConifer := pre.crownShape = .pyramidal ∨ pre.crownShape = .umbrella
  let trunkRadiusBase := if isConifer then p.treeHeight else baseOfCrownOf o p
  trunkRadiusBase * pre.trunkDiameterRatio * (ageFor p.age).trunkThicknessMultiplier

/-- The effective minimum radius:
`Math.max(params.minRadius * 0.25, 0.03)`. -/
def effectiveMinRadiusOf (p : GenParams) : ℚ := max (p.minRadius * 0.25) 0.03

/-- The effective recursion bound:
`Math.max(4, preset.maxBranchLevels + ageModifiers.maxLevelsAdjust)`. -/
def maxLevelsOf (o : MathOracle) (p : GenParams) : ℕ :=
  (max 4 (((presetFor o p.preset).maxBranchLevels : ℤ) + (ageFor p.age).maxLevelsAdjust)).toNat

/-- The inner loop `for (let i = 0; i < branchesAtLevel; i++)` of
`generateTree`: spawns one primary branch per iteration. -/
def branchLoop (o : MathOracle) (pre : TreePreset) (env : CrownEnvelope)
    (origin : Vec3) (t : ℚ) (level : ℕ)
    (leaderRadiusHere baseBranchLength minRadius : ℚ) (maxLevels : ℕ) :
    ℕ → ℕ → ℕ → List BranchSegment × ℕ
  | 0, _, seed => ([], seed)
  | remaining + 1, i, seed =>
    let goldenAngle := o.pi * (3 - o.sqrt 5)
    let sPhi := nextSeed seed
    let phi := (i : ℚ) * goldenAngle + (level : ℚ) * 0.5 + rrVal sPhi (-0.4) 0.4
    let angleMultiplier := 1 - t * 0.25
    let sTheta := nextSeed sPhi
    let theta := pre.branchAngleBase * angleMultiplier +
      rrVal sTheta (-pre.branchAngleVariation) pre.branchAngleVariation
    let dir := calculateBranchDirection o ⟨0, 1, 0⟩ theta phi
    let sRad := nextSeed sTheta
    let branchRadius := leaderRadiusHere * (0.35 + randQ sRad * 0.25)
    let res := genBranch o pre env maxLevels origin dir branchRadius baseBranchLength
      0 minRadius maxLevels sRad
    let rest := branchLoop o pre env origin t level leaderRadiusHere baseBranchLength
      minRadius maxLevels remaining (i + 1) res.2
    (res.1 ++ rest.1, rest.2)

/-- The outer loop `for (let level = 0; level < numBranchLevels; level++)`
of `generateTree`: one tier of primary branches per iteration. -/
def tierLoop (o : MathOracle) (pre : TreePreset) (env : CrownEnvelope)
    (baseOfCrown treeHeight crownMaxRadius leaderHeight trunkRadius : ℚ)
    (ageM : AgeModifiers) (minRadius : ℚ) (maxLevels numBranchLevels : ℕ) :
    ℕ → ℕ → ℕ → List BranchSegment × ℕ
  | 0, _, seed => ([], seed)
  | remaining + 1, level, seed =>
    let t := ((level : ℚ) + 0.5) / (numBranchLevels : ℚ)
    let branchHeight := baseOfCrown + t * leaderHeight * 0.9
    let leaderRadiusHere := trunkRadius * 0.9 * (1 - t * 0.7)
    let availableRadius := getCrownRadiusAtHeight o pre branchHeight baseOfCrown treeHeight crownMaxRadius
    let s1 := nextSeed seed
    let baseBranchLength := availableRadius * rrVal s1 0.85 1.1
    let baseCount := if pre.branchesPerLevel = 0 then 3 else pre.branchesPerLevel
    let branchesAtLevel :=
      (max 2 ⌊(baseCount : ℚ) * (1 - t * 0.2) * ageM.branchDensityMultiplier⌋).toNat
    let origin : Vec3 := ⟨0, branchHeight, 0⟩
    let res := branchLoop o pre env origin t level leaderRadiusHere baseBranchLength
      minRadius maxLevels branchesAtLevel 0 s1
    let rest := tierLoop o pre env baseOfCrown treeHeight crownMaxRadius leaderHeight
      trunkRadius ageM minRadius maxLevels numBranchLevels remaining (level + 1) res.2
    (res.1 ++ rest.1, rest.2)

/-- `RealisticTreeGenerator.generateTree` (returning the final LCG seed as
well, for the state model).  The first three pushed segments are the trunk
and the two leader segments; the rest come from the tier loop. -/
def generateTreeCore (o : MathOracle) (p : GenParams) : List BranchSegment × ℕ :=
  let seed0 := p.seed.getD 42
  let pre := presetFor o p.preset
  let ageM := ageFor p.age
  let treeHeight := p.treeHeight
  let baseOfCrown := baseOfCrownOf o p
  let trunkRadius := trunkRadiusOf o p
  let minRadius := effectiveMinRadiusOf p
  let crownHeight := crownHeightOf o p
  let crownMaxRadius := crownMaxRadiusOf o p
  let env := crownEnvelopeOf o p
  let leaderHeight := crownHeight * pre.leaderRatio
  let leaderTop := baseOfCrown + leaderHeight
  let leaderTopRadius := trunkRadius * 0.4
  let leaderMid := baseOfCrown + leaderHeight * 0.5
  let leaderMidRadius := trunkRadius * 0.65
  let trunkSeg : BranchSegment :=
    ⟨⟨0, 0, 0⟩, ⟨0, baseOfCrown, 0⟩, trunkRadius * 1.3, trunkRadius⟩
  let leaderSeg1 : BranchSegment :=
    ⟨⟨0, baseOfCrown, 0⟩, ⟨0, leaderMid, 0⟩, trunkRadius, leaderMidRadius⟩
  let leaderSeg2 : BranchSegment :=
    ⟨⟨0, leaderMid, 0⟩, ⟨0, leaderTop, 0⟩, leaderMidRadius, leaderTopRadius⟩
  let maxLevels := maxLevelsOf o p
  let effectiveDensity := p.crownDensity.getD 5
  let numBranchLevels :=
    (⌊(4 + (effectiveDensity / 10) * 11 * ageM.branchDensityMultiplier : ℚ)⌋).toNat
  let rest := tierLoop o pre env baseOfCrown treeHeight crownMaxRadius leaderHeight
    trunkRadius ageM minRadius maxLevels numBranchLevels numBranchLevels 0 seed0
  (trunkSeg :: leaderSeg1 :: leaderSeg2 :: rest.1, rest.2)

/-- The segment list returned by `generateTree`. -/
def generateTree (o : MathOracle) (p : GenParams) : List BranchSegment :=
  (generateTreeCore o p).1

/-- The mutable instance state of `RealisticTreeGenerator`. -/
structure GenState where
  segments : List BranchSegment
  seed : ℕ
  preset : TreePreset
  ageModifiers : AgeModifiers
  crownEnvelope : Option CrownEnvelope

/-- `generateTree` as a method on the instance state: the method begins by
overwriting every instance field it reads (`this.segments = []`,
`this.seed = params.seed ?? 42`, `this.preset = ...`,
`this.ageModifiers = ...`, `this.crownEnvelope = {...}`), so the result is a
function of the parameters alone. -/
def generateTreeFrom (o : MathOracle) (_st : GenState) (p : GenParams) :
    List BranchSegment × GenState :=
  let r := generateTreeCore o p
  (r.1,
    { segments := r.1
      seed := r.2
      preset := presetFor o p.preset
      ageModifiers := ageFor p.age
      crownEnvelope := some (crownEnvelopeOf o p) })

/-! ### `Botanist.generateString` (L-system expansion, `realisticTree.ts`) -/

/-- The dynamically built production rule: `'FF' + branchStr` where
`branchStr` is one `[±F]` group per unit of branching factor, alternating
sign starting with `+`. -/
def botanistRule (branchingFactor : ℕ) : List Char :=
  "FF".toList ++
    (List.range branchingFactor).flatMap
      (fun i => ['['] ++ [if i % 2 = 0 then '+' else '-'] ++ ['F', ']'])

/-- One pass of the expansion loop body: every `'F'` is replaced by the
rule, every other character passes through unchanged. -/
def botanistStep (rule : List Char) : List Char → List Char
  | [] => []
  | c :: cs => (if c = 'F' then rule else [c]) ++ botanistStep rule cs

def botanistIter (rule : List Char) : ℕ → List Char → List Char
  | 0, cur => cur
  | n + 1, cur => botanistIter rule n (botanistStep rule cur)

/-- `Botanist.generateString(axiom, depth, branchingFactor)`. -/
def generateString (ax : String) (depth : ℕ) (branchingFactor : ℕ) : String :=
  ⟨botanistIter (botanistRule branchingFactor) depth ax.toList⟩

/-- Modelled from the spec sentence of the scenario: one application of the
fixed rewrite rule `F → "FF[+F][-F]"`, every `'F'` replaced by the rule and
other symbols passed through unchanged. -/
def botanistStepSpec : List Char → List Char
  | [] => []
  | c :: cs => (if c = 'F' then "FF[+F][-F]".toList else [c]) ++ botanistStepSpec cs

/-- The spec's rewrite, packaged on strings; used only to compare the source
implementation against the spec's wording. -/
def specRuleApply (s : String) : String :=
  ⟨botanistStepSpec s.toList⟩

/-! ### `ConnectedTreeGenerator` (`connectedTree.ts`) -/

/-- `Vector3.distanceTo`. -/
def distanceTo (o : MathOracle) (a b : Vec3) : ℚ := Vec3.len o (a.sub b)

/-- `tryCreateLoop`: returns the (possibly empty) list of appended loop
segments together with the seed after the call, or `none` when the source
would dereference an out-of-range element (`nearby[targetIndex]` with
`targetIndex = nearby.length`, possible only when `random()` returns
exactly 1). -/
def tryCreateLoop (o : MathOracle) (branchEnds : List Vec3) (fromPt : Vec3)
    (thickness : ℚ) (seed : ℕ) : Option (List BranchSegment × ℕ) :=
  let maxDistance : ℚ := 2.0
  let nearby := branchEnds.filter
    (fun e => decide (0.1 < distanceTo o fromPt e ∧ distanceTo o fromPt e < maxDistance))
  if nearby.isEmpty then some ([], seed)
  else
    let sT := nextSeed seed
    let targetIndex := (⌊randQ sT * (nearby.length : ℚ)⌋).toNat
    match nearby.get? targetIndex with
    | none => none
    | some target => some ([⟨fromPt, target, thickness, thickness⟩], sT)

/-- `generateConnectedCrown`'s branch loop
(`for (let i = 0; i < totalBranches; i++)`).  `none` models the fatal
out-of-range dereference `this.branchEnds[parentIndex]` (again only
reachable when `random()` returns exactly 1). -/
def crownLoop (o : MathOracle) (crownRadius thickness : ℚ) (totalBranches : ℕ) :
    ℕ → ℕ → List BranchSegment → List Vec3 → ℕ → Option (List BranchSegment)
  | 0, _, segs, _, _ => some segs
  | remaining + 1, i, segs, branchEnds, seed =>
    let sIdx := nextSeed seed
    let parentIndex := (⌊randQ sIdx * (branchEnds.length : ℚ)⌋).toNat
    match branchEnds.get? parentIndex with
    | none => none
    | some parentPoint =>
      let sAng := nextSeed sIdx
      let angle := rrVal sAng 0 (o.pi * 2)
      let sUp := nextSeed sAng
      let upwardBias := rrVal sUp 0.2 0.8
      let dx := o.cos angle * (1 - upwardBias)
      let dy := upwardBias
      let dz := o.sin angle * (1 - upwardBias)
      let dir := Vec3.normalize o ⟨dx, dy, dz⟩
      let progress := (i : ℚ) / (totalBranches : ℚ)
      let baseLength := crownRadius * 0.3
      let sLen := nextSeed sUp
      let length := baseLength * rrVal sLen 0.3 1.0 * (1 - progress * 0.5)
      let endPoint0 := parentPoint.add (dir.scale length)
      let sJx := nextSeed sLen
      let sJy := nextSeed sJx
      let sJz := nextSeed sJy
      let endPoint := endPoint0.add ⟨rrVal sJx (-0.2) 0.2, rrVal sJy (-0.1) 0.3, rrVal sJz (-0.2) 0.2⟩
      let branchThickness := thickness * (1 - progress * 0.3)
      let segs1 := segs ++ [⟨parentPoint, endPoint, branchThickness, branchThickness * 0.9⟩]
      let branchEnds1 := branchEnds ++ [endPoint]
      let sLoop := nextSeed sJz
      if randQ sLoop < 0.15 ∧ 10 < i then
        match tryCreateLoop o branchEnds1 endPoint (thickness * 0.8) sLoop with
        | none => none
        | some (loopSegs, seed2) =>
          crownLoop o crownRadius thickness totalBranches remaining (i + 1)
            (segs1 ++ loopSegs) branchEnds1 seed2
      else
        crownLoop o crownRadius thickness totalBranches remaining (i + 1)
          segs1 branchEnds1 sLoop

/-- Parameters of `ConnectedTreeGenerator.generateTree`. -/
structure ConnParams where
  trunkRadius : ℚ
  trunkHeight : ℚ
  crownRadius : ℚ
  crownHeight : ℚ
  branchThickness : ℚ
  crownDensity : ℚ
  seed : Option ℕ
deriving DecidableEq, Repr

/-- `ConnectedTreeGenerator.generateTree`. -/
def connectedGenerateTree (o : MathOracle) (p : ConnParams) : Option (List BranchSegment) :=
  let seed0 := p.seed.getD 42
  let trunkTop : Vec3 := ⟨0, p.trunkHeight, 0⟩
  let trunkSeg : BranchSegment :=
    ⟨⟨0, 0, 0⟩, trunkTop, max p.trunkRadius (p.branchThickness * 2),
      max (p.trunkRadius * 0.7) (p.branchThickness * 1.5)⟩
  let totalBranches := (⌊(20 + p.crownDensity * 60 : ℚ)⌋).toNat
  crownLoop o p.crownRadius p.branchThickness totalBranches totalBranches 0
    [trunkSeg] [trunkTop] seed0

/-- The connectivity property claimed for the connected generator: every
segment except the first roots at the end point of an earlier segment. -/
def startsConnected (segs : List BranchSegment) : Prop :=
  ∀ i (h : i < segs.length), i ≠ 0 →
    ∃ j, ∃ h' : j < segs.length, j < i ∧ segs[j].endPoint = segs[i].start

/-- Loop invariant of `generateConnectedCrown`: every tracked branch end is
the end point of some already-emitted segment. -/
def endsCovered (segs : List BranchSegment) (ends : List Vec3) : Prop :=
  ∀ e ∈ ends, ∃ j, ∃ h' : j < segs.length, segs[j].endPoint = e

/-! ### STL serialization (`meshToSTL` from the assembly worker) -/

/-- The mesh read back from the boolean kernel: interleaved vertex property
buffer plus triangle index buffer. -/
structure MeshData where
  numProp : ℕ
  vertProperties : List ℚ
  triVerts : List ℕ
deriving DecidableEq, Repr

/-- The worker's 80-byte STL header: the fixed string, zero-padded. -/
def stlHeaderBytes : List ℕ :=
  let header := "Binary STL exported from Tradet Tree Generator"
  let codes := header.toList.map Char.toNat
  (List.range 80).map (fun i => codes.getD i 0)

/-- `DataView.setUint32(off, n, true)`: the four little-endian bytes of
`n mod 2^32`. -/
def u32le (n : ℕ) : List ℕ :=
  [n % 256, n / 256 % 256, n / 65536 % 256, n / 16777216 % 256]

/-- Reads back a little-endian unsigned 32-bit integer at byte offset
`off` of a byte list. -/
def decodeU32LE (bytes : List ℕ) (off : ℕ) : ℕ :=
  bytes.getD off 0 + 256 * bytes.getD (off + 1) 0 +
    65536 * bytes.getD (off + 2) 0 + 16777216 * bytes.getD (off + 3) 0

/-- The 50-byte record `meshToSTL` writes for triangle `t`: the computed
face normal (3 floats), the three vertices (9 floats), and the 2-byte
attribute field fixed at zero.  `enc` is the IEEE-754 binary32 encoder
(`DataView.setFloat32`), abstracted as a 4-byte encoding of the rational
value. -/
def triRecord (o : MathOracle) (enc : ℚ → List ℕ) (vertices : List (List ℚ))
    (triVerts : List ℕ) (t : ℕ) : List ℕ :=
  let i0 := triVerts.getD (t * 3) 0
  let i1 := triVerts.getD (t * 3 + 1) 0
  let i2 := triVerts.getD (t * 3 + 2) 0
  let v0 := vertices.getD i0 [0, 0, 0]
  let v1 := vertices.getD i1 [0, 0, 0]
  let v2 := vertices.getD i2 [0, 0, 0]
  let e1 := [v1.getD 0 0 - v0.getD 0 0, v1.getD 1 0 - v0.getD 1 0, v1.getD 2 0 - v0.getD 2 0]
  let e2 := [v2.getD 0 0 - v0.getD 0 0, v2.getD 1 0 - v0.getD 1 0, v2.getD 2 0 - v0.getD 2 0]
  let nx := e1.getD 1 0 * e2.getD 2 0 - e1.getD 2 0 * e2.getD 1 0
  let ny := e1.getD 2 0 * e2.getD 0 0 - e1.getD 0 0 * e2.getD 2 0
  let nz := e1.getD 0 0 * e2.getD 1 0 - e1.getD 1 0 * e2.getD 0 0
  let len := o.sqrt (nx * nx + ny * ny + nz * nz)
  enc (if 0 < len then nx / len else 0) ++
  enc (if 0 < len then ny / len else 0) ++
  enc (if 0 < len then nz / len else 0) ++
  enc (v0.getD 0 0) ++ enc (v0.getD 1 0) ++ enc (v0.getD 2 0) ++
  enc (v1.getD 0 0) ++ enc (v1.getD 1 0) ++ enc (v1.getD 2 0) ++
  enc (v2.getD 0 0) ++ enc (v2.getD 1 0) ++ enc (v2.getD 2 0) ++
  [0, 0]

/-- The vertex extraction loop at the head of `meshToSTL`: one
`[x, y, z]` triple per vertex, read from the interleaved property buffer. -/
def stlVertices (mesh : MeshData) : List (List ℚ) :=
  let numProp := if mesh.numProp = 0 then 3 else mesh.numProp
  let numVerts := mesh.vertProperties.length / numProp
  (List.range numVerts).map
    (fun i => [mesh.vertProperties.getD (i * numProp) 0,
               mesh.vertProperties.getD (i * numProp + 1) 0,
               mesh.vertProperties.getD (i * numProp + 2) 0])

/-- `meshToSTL`: 80-byte header, 4-byte little-endian triangle count, then
one 50-byte record per triangle. -/
def meshToSTL (o : MathOracle) (enc : ℚ → List ℕ) (mesh : MeshData) : List ℕ :=
  let numTris := mesh.triVerts.length / 3
  stlHeaderBytes ++ u32le numTris ++
    (List.range numTris).flatMap (triRecord o enc (stlVertices mesh) mesh.triVerts)

/-! ### The assembly worker (`self.onmessage` of the manifold worker) -/

inductive FKind where
  | sphere | cone | cylinder
deriving DecidableEq, Repr

/-- `FoliageCluster` as the worker receives it. -/
structure FoliageCluster where
  position : Vec3
  radius : ℚ
  kind : FKind
  height : Option ℚ
  topRadius : Option ℚ
deriving DecidableEq, Repr

/-- The external boolean mesh kernel (manifold-3d), abstracted: `S` is the
opaque solid handle type.  `workerInitOk`/`workerInitErr` model the outcome
of `initManifold()`. -/
structure Kernel (S : Type) where
  workerInitOk : Bool
  workerInitErr : String
  union : S → S → S
  cylinder : ℚ → ℚ → ℚ → ℕ → S
  sphere : ℚ → ℕ → S
  rotateEuler : S → ℚ × ℚ × ℚ → S
  rotateAxis : S → ℚ × ℚ × ℚ → ℚ × ℚ × ℚ → ℚ → S
  translate : S → ℚ × ℚ × ℚ → S
  getMesh : S → MeshData

/-- `binaryUnion`: balanced recursive pairwise union; `none` for the empty
list (the source returns `null`). -/
def binaryUnion {S : Type} (K : Kernel S) : List S → Option S
  | [] => none
  | [s] => some s
  | s :: s' :: rest =>
    let solids := s :: s' :: rest
    let mid := solids.length / 2
    let left := binaryUnion K (solids.take mid)
    let right := binaryUnion K (solids.drop mid)
    match left, right with
    | none, r => r
    | l, none => l
    | some l, some r => some (K.union l r)
termination_by solids => solids.length
decreasing_by
  · simp [solids]
    omega
  · simp [solids]
    omega

/-- `createSphere` from the worker. -/
def wCreateSphere {S : Type} (K : Kernel S) (position : Vec3) (radius : ℚ) : Option S :=
  if radius < 0.001 then none
  else some (K.translate (K.sphere radius 16) (position.x, position.y, position.z))

/-- `createFoliageCluster` from the worker. -/
def wCreateFoliageCluster {S : Type} (K : Kernel S) (c : FoliageCluster) : Option S :=
  match c.kind with
  | .sphere => wCreateSphere K c.position c.radius
  | .cone =>
    let coneHeight := c.height.getD (c.radius * 2)
    let coneTopRadius := c.topRadius.getD (c.radius * 0.1)
    let cone := K.cylinder coneHeight c.radius coneTopRadius 16
    let cone := K.rotateAxis cone (0, 0, 0) (1, 0, 0) (-90)
    some (K.translate cone (c.position.x, c.position.y, c.position.z))
  | .cylinder =>
    let cylHeight := c.height.getD (c.radius * 2)
    let cyl := K.cylinder cylHeight c.radius c.radius 16
    let cyl := K.rotateAxis cyl (0, 0, 0) (1, 0, 0) (-90)
    some (K.translate cyl (c.position.x, c.position.y, c.position.z))

/-- `createBranch` from the worker (tapered cylinder aligned onto the
segment's direction; `none` for degenerate near-zero length). -/
def wCreateBranch {S : Type} (o : MathOracle) (K : Kernel S) (b : BranchSegment) : Option S :=
  let dx := b.endPoint.x - b.start.x
  let dy := b.endPoint.y - b.start.y
  let dz := b.endPoint.z - b.start.z
  let height := o.sqrt (dx * dx + dy * dy + dz * dz)
  if height < 0.0001 then none
  else
    let avgRadius := (b.r1 + b.r2) / 2
    let segments : ℕ := if 0.3 < avgRadius then 12 else if 0.1 < avgRadius then 8 else 6
    let cyl := K.cylinder height b.r1 b.r2 segments
    let horizontalDist := o.sqrt (dx * dx + dz * dz)
    let yaw := if 0.0001 < horizontalDist then o.atan2 dx dz * (180 / o.pi) else 0
    let pitch := -(o.atan2 dy horizontalDist) * (180 / o.pi)
    let cyl :=
      if height * 0.999 < |dy| ∧ horizontalDist < 0.001 then
        if 0 < dy then K.rotateEuler cyl (-90, 0, 0)
        else K.rotateEuler cyl (90, 0, 0)
      else K.rotateEuler cyl (pitch, yaw, 0)
    some (K.translate cyl (b.start.x, b.start.y, b.start.z))

/-- Worker requests (`e.data`). -/
inductive WRequest where
  | INIT
  | GENERATE_TREE (branches : List BranchSegment) (foliage : Option (List FoliageCluster))
  | EXPORT_STL (modelScale : Option ℚ)

/-- Worker replies (`self.postMessage`). -/
inductive WMsg where
  | READY
  | ERROR (msg : String)
  | TREE_READY (vertices : List ℚ) (indices : List ℕ)
  | STL_READY (buf : List ℕ)
deriving DecidableEq

def WMsg.isSTLReady : WMsg → Bool
  | .STL_READY _ => true
  | _ => false

/-- Worker-scoped mutable state: `manifold` (set only by a successful
`INIT`) and `currentSolid` (set only by a successful `GENERATE_TREE`). -/
structure WState (S : Type) where
  manifoldReady : Bool
  currentSolid : Option S

/-- One `self.onmessage` dispatch of the assembly worker (`part_000`).
Returns the new state and the posted messages, in order.  Kernel calls are
modelled as total, so the `catch` arms of the source are unreachable here;
`enc` is the `setFloat32` byte encoder passed through to `meshToSTL`. -/
def handleRequest {S : Type} (o : MathOracle) (K : Kernel S) (enc : ℚ → List ℕ)
    (st : WState S) : WRequest → WState S × List WMsg
  | .INIT =>
    if K.workerInitOk then ({ st with manifoldReady := true }, [.READY])
    else (st, [.ERROR ("Init failed: " ++ K.workerInitErr)])
  | .GENERATE_TREE branches foliage =>
    if st.manifoldReady = false then (st, [])
    else
      let branchSolids := branches.filterMap (wCreateBranch o K)
      let foliageSolids :=
        match foliage with
        | some fl => fl.filterMap (wCreateFoliageCluster K)
        | none => []
      let solids := branchSolids ++ foliageSolids
      if solids.isEmpty then (st, [.ERROR "No geometry generated"])
      else
        match binaryUnion K solids with
        | none => (st, [])
        | some solid =>
          let mesh := K.getMesh solid
          let numProp := if mesh.numProp = 0 then 3 else mesh.numProp
          let numVerts := mesh.vertProperties.length / numProp
          let vertices := (List.range numVerts).flatMap
            (fun i => [mesh.vertProperties.getD (i * numProp) 0,
                       mesh.vertProperties.getD (i * numProp + 1) 0,
                       mesh.vertProperties.getD (i * numProp + 2) 0])
          ({ st with currentSolid := some solid }, [.TREE_READY vertices mesh.triVerts])
  | .EXPORT_STL payload =>
    match st.currentSolid with
    | none => (st, [.ERROR "No tree generated yet. Generate a tree first."])
    | some solid =>
      let modelScale := payload.getD 1
      let scaleFactor := 1 / modelScale
      let mesh := K.getMesh solid
      let scaledMesh := { mesh with vertProperties := mesh.vertProperties.map (· * scaleFactor) }
      (st, [.STL_READY (meshToSTL o enc scaledMesh)])

/-! ### Concrete instances used in evaluations -/

/-- Exact rational square root: returns the exact root when the argument is
the square of a rational, `0` otherwise (a legitimate `MathOracle` choice). -/
def ratSqrt (q : ℚ) : ℚ :=
  if q < 0 then 0
  else
    let n := q.num.toNat
    let d := q.den
    if Nat.sqrt n * Nat.sqrt n = n ∧ Nat.sqrt d * Nat.sqrt d = d then
      (Nat.sqrt n : ℚ) / (Nat.sqrt d : ℚ)
    else 0

/-- Oracle with exact square roots and all transcendentals at `0`. -/
def ratOracle : MathOracle := ⟨0, ratSqrt, fun _ => 0, fun _ => 0, fun _ _ => 0⟩

/-- Oracle with every `Math.*` function returning `0`. -/
def zeroOracle : MathOracle := ⟨0, fun _ => 0, fun _ => 0, fun _ => 0, fun _ _ => 0⟩

def envUnit : CrownEnvelope := ⟨⟨0, 0, 0⟩, 1, 1, 1⟩

def spruceParams : GenParams :=
  { treeHeight := 10, minRadius := 0.1, seed := none, preset := some "spruce"
    age := none, crownWidth := none, trunkHeight := none, crownDensity := none }

def pineP1 : GenParams :=
  { treeHeight := 15, minRadius := 0.1, seed := some 1, preset := some "pine"
    age := none, crownWidth := none, trunkHeight := none, crownDensity := none }

def pineP2 : GenParams :=
  { treeHeight := 15, minRadius := 0.1, seed := some 2, preset := some "pine"
    age := none, crownWidth := none, trunkHeight := none, crownDensity := none }

def lindenTiny : GenParams :=
  { treeHeight := 1, minRadius := 1, seed := none, preset := some "linden"
    age := none, crownWidth := none, trunkHeight := none, crownDensity := none }

/-- The first branch segment (list index 3) of `generateTree zeroOracle pineP1`. -/
def c2Seg : BranchSegment :=
  ⟨⟨0, 123/16, 0⟩, ⟨0, 123/16, 0⟩, 16170923709369/214748364700000,
    16170923709369/214748364700000 * 0.85⟩

/-- The first branch segment (list index 3) of `generateTree zeroOracle pineP2`. -/
def c3Seg : BranchSegment :=
  ⟨⟨0, 123/16, 0⟩, ⟨0, 123/16, 0⟩, 29994170565483/429496729400000,
    29994170565483/429496729400000 * 0.85⟩

def unitKernel : Kernel Unit :=
  { workerInitOk := true, workerInitErr := "", union := fun _ _ => ()
    cylinder := fun _ _ _ _ => (), sphere := fun _ _ => ()
    rotateEuler := fun _ _ => (), rotateAxis := fun _ _ _ _ => ()
    translate := fun _ _ => (), getMesh := fun _ => ⟨3, [], []⟩ }

def encZero : ℚ → List ℕ := fun _ => [0, 0, 0, 0]

def stReadyNoSolid : WState Unit := ⟨true, none⟩

def stUninitialized : WState Unit := ⟨false, none⟩

def oneTriMesh : MeshData := ⟨3, [0, 0, 0, 1, 0, 0, 0, 1, 0], [0, 1, 2]⟩

/-! ### Theorems -/

/-- C4: for a fixed oracle and fixed parameters, two calls of
`generateTree` from arbitrary (different) instance states produce identical
results — the method starts by overwriting every instance field it reads
(segments, seed, preset, age modifiers, crown envelope), so its output
depends on the parameter record alone. -/
theorem c4_determinism (o : MathOracle) (st st' : GenState) (p : GenParams) :
    generateTreeFrom o st p = generateTreeFrom o st' p := rfl

/-- C5 (amended): `generateBranchWithEnvelope` emits nothing — and leaves
the LCG seed untouched — whenever it is entered with
`depth ≥ maxLevels`, where `maxLevels = max(4, maxBranchLevels +
maxLevelsAdjust)` is the bound `generateTree` passes down.  Hence no
recursion path has an emitting call at depth ≥ that effective bound. -/
theorem c5_depth_guard (o : MathOracle) (pre : TreePreset) (env : CrownEnvelope)
    (fuel : ℕ) (origin direction : Vec3) (radius length : ℚ)
    (depth : ℕ) (minRadius : ℚ) (maxLevels seed : ℕ)
    (h : maxLevels ≤ depth) :
    genBranch o pre env fuel origin direction radius length depth minRadius maxLevels seed
      = ([], seed) := by
  cases fuel with
  | zero => rfl
  | succ n => simp only [genBranch, if_pos h]

/-- Witness for `c5_depth_guard` at a concrete input. -/
theorem c5_depth_guard_witness :
    genBranch zeroOracle (presetLinden zeroOracle) envUnit 3 ⟨0, 0, 0⟩ ⟨0, 1, 0⟩ 1 1 5 0.03 4 7
      = ([], 7) :=
  c5_depth_guard zeroOracle (presetLinden zeroOracle) envUnit 3 ⟨0, 0, 0⟩ ⟨0, 1, 0⟩ 1 1 5 0.03 4 7
    (by decide)

/-- C5 counterexample: for spruce at mature age the claim's `D` —
`maxBranchLevels + maxLevelsAdjust` — equals 3, yet a call of the branch
recursion at `depth = 3` with the `maxLevels = max(4, 3) = 4` that
`generateTree` actually passes does emit a segment, so the recursion does
reach depth `D` in an emitting call. -/
theorem c5_counterexample :
    ((presetSpruce zeroOracle).maxBranchLevels : ℤ) + ageMature.maxLevelsAdjust = 3 ∧
    (genBranch zeroOracle (presetSpruce zeroOracle) envUnit 1 ⟨0, 0, 0⟩ ⟨0, 1, 0⟩
      1 1 3 0.03 4 42).1 ≠ [] := by
  constructor
  · decide
  · with_unfolding_all decide

/-- C1: evaluation of the code at the failing inputs.  (i) For the spruce
preset (leader ratio 1.0, tree height 10) `generateTree` emits the leader
segment ending at `(0, 10, 0)`, and that end point's signed distance to the
crown ellipsoid is `1/12 > 0` — an emitted end point strictly outside the
envelope.  (ii) In the clamp branch of `generateBranchWithEnvelope`
(`endPoint.copy(origin).lerp(endPoint, factor)`) the lerp argument aliases
the already-copied receiver, so for a unit-sphere envelope and an unclamped
end `(0, 2, 0)` (distance 1 outside) the emitted end point is the segment
start `(0, 0, 0)` — whose distance is `-1`, not a point on the surface. -/
theorem c1_envelope_code_bug :
    (generateTree ratOracle spruceParams).get? 2 =
      some ⟨⟨0, 51/10, 0⟩, ⟨0, 10, 0⟩, 13/125, 8/125⟩ ∧
    distanceToCrownSurface ratOracle (crownEnvelopeOf ratOracle spruceParams) ⟨0, 10, 0⟩
      = 1/12 ∧
    distanceToCrownSurface ratOracle envUnit ⟨0, 2, 0⟩ = 1 ∧
    (genBranch ratOracle (presetLinden ratOracle) envUnit 1 ⟨0, 0, 0⟩ ⟨0, 1, 0⟩
        1 2 0 0.03 1 42).1 = [⟨⟨0, 0, 0⟩, ⟨0, 0, 0⟩, 1, 0.85⟩] ∧
    distanceToCrownSurface ratOracle envUnit ⟨0, 0, 0⟩ = -1 := by
  refine ⟨?_, ?_, ?_, ?_, ?_⟩ <;> with_unfolding_all decide

/-- C2 counterexample: the very first returned segment (the trunk) of a
pine tree of height 15 has `r1 = 0.234` and `r2 = 0.18 ≠ 0.234 × 0.85`, so
not every element of the returned sequence satisfies `r2 = r1 × 0.85`. -/
theorem c2_counterexample :
    ¬ ∀ s ∈ generateTree zeroOracle pineP1, s.r2 = s.r1 * 0.85 := by
  intro h
  have hmem : (⟨⟨0, 0, 0⟩, ⟨0, 15/2, 0⟩, 117/500, 9/50⟩ : BranchSegment)
      ∈ generateTree zeroOracle pineP1 :=
    List.get?_mem (n := 0) (by with_unfolding_all rfl)
  have := h _ hmem
  revert this
  with_unfolding_all decide

/-- C3 counterexample: for a linden of height 1 with caller minimum radius
`m = 1`, the returned trunk segment has `r2 = 0.0084`, far below both `m`
and the 0.03 floor — the trunk and leader segments are not subject to any
radius floor. -/
theorem c3_counterexample :
    ¬ ∀ s ∈ generateTree zeroOracle lindenTiny,
        lindenTiny.minRadius ≤ s.r1 ∧ lindenTiny.minRadius ≤ s.r2 ∧
        0.03 ≤ s.r1 ∧ 0.03 ≤ s.r2 := by
  intro h
  have hmem : (⟨⟨0, 0, 0⟩, ⟨0, 3/10, 0⟩, 1092/100000, 84/10000⟩ : BranchSegment)
      ∈ generateTree zeroOracle lindenTiny :=
    List.get?_mem (n := 0) (by with_unfolding_all rfl)
  have := h _ hmem
  revert this
  with_unfolding_all decide

/-- C7 counterexample: `generateString("F", 2, 2)` does equal the double
application of `F → "FF[+F][-F]"`, but the length growth factors differ:
1 → 10 → 46, and `10 × 10 ≠ 1 × 46`, so the length does not grow by the
same multiplicative factor on the two applications. -/
theorem c7_counterexample :
    ¬ (generateString "F" 2 2 = specRuleApply (specRuleApply "F") ∧
       (generateString "F" 1 2).length * (generateString "F" 1 2).length =
         ("F" : String).length * (generateString "F" 2 2).length) := by
  with_unfolding_all decide

/-- C7 (amended): `generateString("F", 2, 2)` is exactly the double
application of the rewrite rule `F → "FF[+F][-F]"` to the axiom `"F"`;
the intermediate lengths are 1, 10 and 46, so the growth factor of the
first application is 10 and of the second 46/10. -/
theorem c7_expansion :
    generateString "F" 2 2 = specRuleApply (specRuleApply "F") ∧
    ("F" : String).length = 1 ∧
    (generateString "F" 1 2).length = 10 ∧
    (generateString "F" 2 2).length = 46 := by
  with_unfolding_all decide

/-- C8: an `EXPORT_STL` request processed while no assembled solid exists
(`currentSolid = null`) answers with exactly the error message
`"No tree generated yet. Generate a tree first."` — in particular no
`STL_READY` message is posted and the state is unchanged. -/
theorem c8_export_before_generation {S : Type} (o : MathOracle) (K : Kernel S)
    (enc : ℚ → List ℕ) (st : WState S) (payload : Option ℚ)
    (h : st.currentSolid = none) :
    handleRequest o K enc st (.EXPORT_STL payload)
      = (st, [.ERROR "No tree generated yet. Generate a tree first."]) ∧
    ∀ m ∈ (handleRequest o K enc st (.EXPORT_STL payload)).2, m.isSTLReady = false := by
  have hd : handleRequest o K enc st (.EXPORT_STL payload)
      = (st, [.ERROR "No tree generated yet. Generate a tree first."]) := by
    simp only [handleRequest, h]
  refine ⟨hd, ?_⟩
  rw [hd]
  intro m hm
  simp only [List.mem_singleton] at hm
  subst hm
  rfl

/-- Witness for `c8_export_before_generation` at a concrete state. -/
theorem c8_export_before_generation_witness :
    handleRequest zeroOracle unitKernel encZero stReadyNoSolid (.EXPORT_STL none)
      = (stReadyNoSolid, [.ERROR "No tree generated yet. Generate a tree first."]) ∧
    ∀ m ∈ (handleRequest zeroOracle unitKernel encZero stReadyNoSolid (.EXPORT_STL none)).2,
      m.isSTLReady = false :=
  c8_export_before_generation zeroOracle unitKernel encZero stReadyNoSolid none rfl

/-- C10: a `GENERATE_TREE` request processed before the kernel has
initialized (`manifold` unset) returns without posting any message at all —
the request is silently dropped and the state is unchanged. -/
theorem c10_generate_before_init {S : Type} (o : MathOracle) (K : Kernel S)
    (enc : ℚ → List ℕ) (st : WState S)
    (branches : List BranchSegment) (foliage : Option (List FoliageCluster))
    (h : st.manifoldReady = false) :
    handleRequest o K enc st (.GENERATE_TREE branches foliage) = (st, []) := by
  simp only [handleRequest, h, if_pos]

/-- Witness for `c10_generate_before_init` at a concrete state. -/
theorem c10_generate_before_init_witness :
    handleRequest zeroOracle unitKernel encZero stUninitialized
      (.GENERATE_TREE [⟨⟨0, 0, 0⟩, ⟨0, 1, 0⟩, 1, 1⟩] none) = (stUninitialized, []) :=
  c10_generate_before_init zeroOracle unitKernel encZero stUninitialized
    [⟨⟨0, 0, 0⟩, ⟨0, 1, 0⟩, 1, 1⟩] none rfl

/-- Every segment emitted by the child loop satisfies any property that all
segments of the recursive child call satisfy. -/
theorem mem_childLoop {P : BranchSegment → Prop}
    (o : MathOracle) (pre : TreePreset) (env : CrownEnvelope)
    (goChild : Vec3 → Vec3 → ℚ → ℚ → ℕ → List BranchSegment × ℕ)
    (direction endPoint : Vec3) (childRadius childLength minRadius : ℚ)
    (depth maxLevels : ℕ)
    (hgo : ∀ org dir r l s, ∀ x ∈ (goChild org dir r l s).1, P x) :
    ∀ remaining i seed,
      ∀ x ∈ (childLoop o pre env goChild direction endPoint childRadius
        childLength minRadius depth maxLevels remaining i seed).1, P x := by
  intro remaining
  induction remaining with
  | zero =>
    intro i seed x hx
    simp only [childLoop] at hx
    exact absurd hx (List.not_mem_nil x)
  | succ n ih =>
    intro i seed x hx
    simp only [childLoop] at hx
    rcases List.mem_append.mp hx with h | h
    · exact hgo _ _ _ _ _ x h
    · exact ih _ _ x h

/-- Radius invariant of the branch recursion: every emitted segment has
`r1 ≥ minRadius` (the guard `radius < minRadius` prunes the call before it
emits) and `r2 = r1 × 0.85` exactly. -/
theorem mem_genBranch (o : MathOracle) (pre : TreePreset) (env : CrownEnvelope) :
    ∀ fuel origin direction radius length depth minRadius maxLevels seed,
      ∀ x ∈ (genBranch o pre env fuel origin direction radius length depth minRadius
        maxLevels seed).1, minRadius ≤ x.r1 ∧ x.r2 = x.r1 * 0.85 := by
  intro fuel
  induction fuel with
  | zero =>
    intro _ _ _ _ _ _ _ _ x hx
    simp only [genBranch] at hx
    exact absurd hx (List.not_mem_nil x)
  | succ n ih =>
    intro origin direction radius length depth minRadius maxLevels seed x hx
    simp only [genBranch] at hx
    by_cases h1 : maxLevels ≤ depth
    · rw [if_pos h1] at hx
      exact absurd hx (List.not_mem_nil x)
    rw [if_neg h1] at hx
    by_cases h2 : radius < minRadius
    · rw [if_pos h2] at hx
      exact absurd hx (List.not_mem_nil x)
    rw [if_neg h2] at hx
    by_cases h3 : length < 0.04
    · rw [if_pos h3] at hx
      exact absurd hx (List.not_mem_nil x)
    rw [if_neg h3] at hx
    rcases List.mem_cons.mp hx with h | h
    · subst h
      exact ⟨not_lt.mp h2, rfl⟩
    · exact mem_childLoop o pre env _ _ _ _ _ _ _ _
        (fun org dir r l s => ih org dir r l (depth + 1) minRadius maxLevels s) _ _ _ x h

/-- The primary-branch loop inherits the radius invariant from the branch
recursion. -/
theorem mem_branchLoop (o : MathOracle) (pre : TreePreset) (env : CrownEnvelope)
    (origin : Vec3) (t : ℚ) (level : ℕ)
    (leaderRadiusHere baseBranchLength minRadius : ℚ) (maxLevels : ℕ) :
    ∀ remaining i seed,
      ∀ x ∈ (branchLoop o pre env origin t level leaderRadiusHere baseBranchLength
        minRadius maxLevels remaining i seed).1, minRadius ≤ x.r1 ∧ x.r2 = x.r1 * 0.85 := by
  intro remaining
  induction remaining with
  | zero =>
    intro i seed x hx
    simp only [branchLoop] at hx
    exact absurd hx (List.not_mem_nil x)
  | succ n ih =>
    intro i seed x hx
    simp only [branchLoop] at hx
    rcases List.mem_append.mp hx with h | h
    · exact mem_genBranch o pre env _ _ _ _ _ _ _ _ _ x h
    · exact ih _ _ x h

/-- The tier loop inherits the radius invariant. -/
theorem mem_tierLoop (o : MathOracle) (pre : TreePreset) (env : CrownEnvelope)
    (baseOfCrown treeHeight crownMaxRadius leaderHeight trunkRadius : ℚ)
    (ageM : AgeModifiers) (minRadius : ℚ) (maxLevels numBranchLevels : ℕ) :
    ∀ remaining level seed,
      ∀ x ∈ (tierLoop o pre env baseOfCrown treeHeight crownMaxRadius leaderHeight
        trunkRadius ageM minRadius maxLevels numBranchLevels remaining level seed).1,
        minRadius ≤ x.r1 ∧ x.r2 = x.r1 * 0.85 := by
  intro remaining
  induction remaining with
  | zero =>
    intro level seed x hx
    simp only [tierLoop] at hx
    exact absurd hx (List.not_mem_nil x)
  | succ n ih =>
    intro level seed x hx
    simp only [tierLoop] at hx
    rcases List.mem_append.mp hx with h | h
    · exact mem_branchLoop o pre env _ _ _ _ _ _ _ _ _ _ x h
    · exact ih _ _ x h

/-- C2 (amended): every segment of the returned sequence *after the first
three* — i.e. every segment emitted by the recursive
`generateBranchWithEnvelope`, as opposed to the trunk and the two leader
segments pushed directly by `generateTree` — satisfies `r2 = r1 × 0.85`
exactly. -/
theorem c2_branch_taper (o : MathOracle) (p : GenParams) :
    ∀ s ∈ (generateTree o p).drop 3, s.r2 = s.r1 * 0.85 := by
  intro s hs
  exact (mem_tierLoop o _ _ _ _ _ _ _ _ _ _ _ _ _ _ s hs).2

/-- Witness for `c2_branch_taper`: the first branch segment of a concrete
pine run. -/
theorem c2_branch_taper_witness : c2Seg.r2 = c2Seg.r1 * 0.85 :=
  c2_branch_taper zeroOracle pineP1 c2Seg
    (List.get?_mem (n := 0) (by with_unfolding_all rfl))

/-- C3 (amended): every segment of the returned sequence after the first
three (trunk and leader are exempt from any floor) has
`r1 ≥ max(minRadius × 0.25, 0.03)` — the floor maintained by the initial
radius guard together with the `Math.max(..., minRadius)` clamp on child
radii — and `r2 = r1 × 0.85`, which can therefore drop below the floor. -/
theorem c3_radius_floor (o : MathOracle) (p : GenParams) :
    ∀ s ∈ (generateTree o p).drop 3,
      effectiveMinRadiusOf p ≤ s.r1 ∧ s.r2 = s.r1 * 0.85 := by
  intro s hs
  exact mem_tierLoop o _ _ _ _ _ _ _ _ _ _ _ _ _ _ s hs

/-- Witness for `c3_radius_floor`: the first branch segment of a concrete
pine run with caller minimum radius 0.1 (effective floor 0.03). -/
theorem c3_radius_floor_witness :
    effectiveMinRadiusOf pineP2 ≤ c3Seg.r1 ∧ c3Seg.r2 = c3Seg.r1 * 0.85 :=
  c3_radius_floor zeroOracle pineP2 c3Seg
    (List.get?_mem (n := 0) (by with_unfolding_all rfl))

/-- Appending a segment whose start is a previous end point preserves
connectivity. -/
theorem startsConnected_push (segs : List BranchSegment) (s : BranchSegment)
    (h : startsConnected segs)
    (hs : ∃ j, ∃ h' : j < segs.length, segs[j].endPoint = s.start) :
    startsConnected (segs ++ [s]) := by
  intro i hi hne
  by_cases hlt : i < segs.length
  · obtain ⟨j, hj, hji, heq⟩ := h i hlt hne
    refine ⟨j, by simp only [List.length_append, List.length_singleton]; omega, hji, ?_⟩
    rw [List.getElem_append_left hj, List.getElem_append_left hlt]
    exact heq
  · have hieq : i = segs.length := by
      simp only [List.length_append, List.length_singleton] at hi
      omega
    obtain ⟨j, hj, heq⟩ := hs
    refine ⟨j, by simp only [List.length_append, List.length_singleton]; omega, by omega, ?_⟩
    rw [List.getElem_append_left hj, List.getElem_concat_length _ _ _ hieq]
    exact heq

/-- Appending a segment and tracking its end point preserves the
ends-covered invariant. -/
theorem endsCovered_push (segs : List BranchSegment) (ends : List Vec3)
    (s : BranchSegment) (e : Vec3)
    (h : endsCovered segs ends) (he : s.endPoint = e) :
    endsCovered (segs ++ [s]) (ends ++ [e]) := by
  intro e' he'
  rcases List.mem_append.mp he' with h' | h'
  · obtain ⟨j, hj, heq⟩ := h e' h'
    refine ⟨j, by simp only [List.length_append, List.length_singleton]; omega, ?_⟩
    rw [List.getElem_append_left hj]
    exact heq
  · rw [List.mem_singleton] at h'
    subst h'
    refine ⟨segs.length, by simp, ?_⟩
    rw [List.getElem_concat_length _ _ _ rfl]
    exact he

/-- Growing the segment list (without tracking new ends) preserves the
ends-covered invariant. -/
theorem endsCovered_extend (segs : List BranchSegment) (ends : List Vec3)
    (ls : List BranchSegment) (h : endsCovered segs ends) :
    endsCovered (segs ++ ls) ends := by
  intro e he
  obtain ⟨j, hj, heq⟩ := h e he
  refine ⟨j, by simp only [List.length_append]; omega, ?_⟩
  rw [List.getElem_append_left hj]
  exact heq

/-- The last appended segment's end point is reachable by index. -/
theorem endPoint_last_mem (segs : List BranchSegment) (s : BranchSegment) :
    ∃ j, ∃ h' : j < (segs ++ [s]).length, (segs ++ [s])[j].endPoint = s.endPoint :=
  ⟨segs.length, by simp, by simp⟩

/-- `tryCreateLoop` appends either nothing or exactly one segment starting
at `fromPt`. -/
theorem tryCreateLoop_shape (o : MathOracle) (branchEnds : List Vec3) (fromPt : Vec3)
    (thickness : ℚ) (seed : ℕ) (ls : List BranchSegment) (s' : ℕ)
    (h : tryCreateLoop o branchEnds fromPt thickness seed = some (ls, s')) :
    ls = [] ∨ ∃ target, ls = [⟨fromPt, target, thickness, thickness⟩] := by
  simp only [tryCreateLoop] at h
  split at h
  · simp only [Option.some.injEq, Prod.mk.injEq] at h
    exact Or.inl h.1.symm
  · split at h
    · exact absurd h (by simp)
    · simp only [Option.some.injEq, Prod.mk.injEq] at h
      exact Or.inr ⟨_, h.1.symm⟩

/-- Invariant preservation through the connected-crown loop: if the
accumulated segments are connected and every tracked end is covered, any
successfully returned list is connected. -/
theorem crownLoop_connected (o : MathOracle) (crownRadius thickness : ℚ)
    (totalBranches : ℕ) :
    ∀ remaining i segs ends seed, startsConnected segs → endsCovered segs ends →
      ∀ out, crownLoop o crownRadius thickness totalBranches remaining i segs ends seed
        = some out → startsConnected out := by
  intro remaining
  induction remaining with
  | zero =>
    intro i segs ends seed hsc _hec out hout
    simp only [crownLoop, Option.some.injEq] at hout
    exact hout ▸ hsc
  | succ n ih =>
    intro i segs ends seed hsc hec out hout
    simp only [crownLoop] at hout
    split at hout
    · exact absurd hout (by simp)
    · rename_i parentPoint hpp
      have hmem : parentPoint ∈ ends := List.get?_mem hpp
      obtain ⟨jp, hjp, hjpeq⟩ := hec parentPoint hmem
      split at hout
      · split at hout
        · exact absurd hout (by simp)
        · rename_i loopSegs seed2 htl
          rcases tryCreateLoop_shape _ _ _ _ _ _ _ htl with rfl | ⟨target, rfl⟩
          · rw [List.append_nil] at hout
            exact ih _ _ _ _ (startsConnected_push _ _ hsc ⟨jp, hjp, hjpeq⟩)
              (endsCovered_push _ _ _ _ hec rfl) out hout
          · exact ih _ _ _ _
              (startsConnected_push _ _
                (startsConnected_push _ _ hsc ⟨jp, hjp, hjpeq⟩)
                (endPoint_last_mem _ _))
              (endsCovered_extend _ _ _ (endsCovered_push _ _ _ _ hec rfl))
              out hout
      · exact ih _ _ _ _ (startsConnected_push _ _ hsc ⟨jp, hjp, hjpeq⟩)
          (endsCovered_push _ _ _ _ hec rfl) out hout

theorem elim_startsConnected (res : Option (List BranchSegment))
    (h : ∀ out, res = some out → startsConnected out) :
    res.elim True startsConnected := by
  cases res with
  | none => trivial
  | some out => exact h out rfl

/-- C9: whenever `ConnectedTreeGenerator.generateTree` returns a segment
list (it returns `none` only on the out-of-range dereference reachable when
`random()` yields exactly 1), every segment except the first — ordinary
crown branches and loop segments alike — starts at the end point of some
earlier segment of the list: crown branches root at a tracked branch end,
and each tracked branch end is the end point of an earlier segment. -/
theorem c9_connected_growth (o : MathOracle) (p : ConnParams) :
    (connectedGenerateTree o p).elim True startsConnected := by
  refine elim_startsConnected _ (fun out hout =>
    crownLoop_connected o p.crownRadius p.branchThickness _ _ _ _ _ _ ?_ ?_ out hout)
  · intro i hi hne
    exact absurd (Nat.lt_one_iff.mp hi) hne
  · intro e he
    rw [List.mem_singleton] at he
    subst he
    exact ⟨0, by simp, rfl⟩

/-- A 4-byte float encoder makes every triangle record exactly 50 bytes:
12 × 4 float bytes plus the 2-byte attribute field. -/
theorem triRecord_length (o : MathOracle) (enc : ℚ → List ℕ)
    (vertices : List (List ℚ)) (triVerts : List ℕ) (t : ℕ)
    (hl : ∀ q, (enc q).length = 4) :
    (triRecord o enc vertices triVerts t).length = 50 := by
  simp [triRecord, hl]

/-- Reading the two bytes after a 48-byte block selects the appended
pair — the attribute field of a triangle record. -/
theorem getD_last_two (A : List ℕ) (x y d : ℕ) (h : A.length = 48) :
    (A ++ [x, y]).getD 48 d = x ∧ (A ++ [x, y]).getD 49 d = y := by
  constructor
  · have hle : A.length ≤ 48 := by omega
    rw [List.getD_append_right _ _ _ _ hle, h]
    rfl
  · have hle : A.length ≤ 49 := by omega
    rw [List.getD_append_right _ _ _ _ hle, h]
    rfl

/-- The last two bytes of every triangle record are the zero attribute
field. -/
theorem triRecord_attr (o : MathOracle) (enc : ℚ → List ℕ)
    (vertices : List (List ℚ)) (triVerts : List ℕ) (t : ℕ) (d : ℕ)
    (hl : ∀ q, (enc q).length = 4) :
    (triRecord o enc vertices triVerts t).getD 48 d = 0 ∧
    (triRecord o enc vertices triVerts t).getD 49 d = 0 := by
  simp only [triRecord]
  refine getD_last_two _ 0 0 d ?_
  simp [hl]

/-- Concatenating constant-length blocks has predictable length. -/
theorem flatMap_length_const {α : Type} (f : α → List ℕ) (c : ℕ)
    (hf : ∀ a, (f a).length = c) :
    ∀ l : List α, (l.flatMap f).length = c * l.length := by
  intro l
  induction l with
  | nil => simp
  | cons a l ih =>
    simp only [List.flatMap_cons, List.length_append, ih, hf, List.length_cons]
    ring

/-- Indexing into a concatenation of constant-length blocks selects a byte
of the addressed block. -/
theorem flatMap_getD_const {α : Type} (f : α → List ℕ) (c : ℕ)
    (hf : ∀ a, (f a).length = c) :
    ∀ (l : List α) (t : ℕ) (h : t < l.length) (k : ℕ), k < c → ∀ d,
      (l.flatMap f).getD (c * t + k) d = (f l[t]).getD k d := by
  intro l
  induction l with
  | nil => intro t h; simp at h
  | cons a l ih =>
    intro t h k hk d
    cases t with
    | zero =>
      simp only [List.flatMap_cons, Nat.mul_zero, Nat.zero_add, List.getElem_cons_zero]
      have hlt : k < (f a).length := by rw [hf]; omega
      rw [List.getD_append _ _ _ _ hlt]
    | succ t =>
      simp only [List.flatMap_cons, List.getElem_cons_succ]
      have hle : (f a).length ≤ c * (t + 1) + k := by
        rw [hf, Nat.mul_succ]; omega
      rw [List.getD_append_right _ _ _ _ hle, hf]
      have hidx : c * (t + 1) + k - c = c * t + k := by rw [Nat.mul_succ]; omega
      rw [hidx]
      exact ih t (by simpa using h) k hk d

/-- C6: for a mesh with `N` triangles (`N = triVerts.length / 3`), the
serialized STL buffer is exactly `84 + 50 × N` bytes — an 80-byte header,
the 4-byte little-endian triangle count, and one 50-byte record (12-byte
normal, 36-byte vertices, 2-byte zero attribute) per triangle — and the
unsigned 32-bit little-endian integer at byte offset 80 equals `N`
(hypotheses: the float encoder produces 4 bytes per value, and `N` fits in
32 bits as `setUint32` wraps modulo `2^32`). -/
theorem c6_stl_layout (o : MathOracle) (enc : ℚ → List ℕ) (mesh : MeshData)
    (hl : ∀ q, (enc q).length = 4)
    (hN : mesh.triVerts.length / 3 < 4294967296) :
    (meshToSTL o enc mesh).length = 84 + 50 * (mesh.triVerts.length / 3) ∧
    decodeU32LE (meshToSTL o enc mesh) 80 = mesh.triVerts.length / 3 ∧
    ∀ t < mesh.triVerts.length / 3,
      (meshToSTL o enc mesh).getD (84 + 50 * t + 48) 7 = 0 ∧
      (meshToSTL o enc mesh).getD (84 + 50 * t + 49) 7 = 0 := by
  have hhdr : stlHeaderBytes.length = 80 := by simp [stlHeaderBytes]
  have hcnt : ∀ n : ℕ, (u32le n).length = 4 := fun n => rfl
  have hpre : (stlHeaderBytes ++ u32le (mesh.triVerts.length / 3)).length = 84 := by
    rw [List.length_append, hhdr, hcnt]
  have hbody : ((List.range (mesh.triVerts.length / 3)).flatMap
      (triRecord o enc (stlVertices mesh) mesh.triVerts)).length
        = 50 * (mesh.triVerts.length / 3) := by
    rw [flatMap_length_const _ 50 (fun a => triRecord_length o enc _ _ a hl),
      List.length_range]
  refine ⟨?_, ?_, ?_⟩
  · simp only [meshToSTL, List.length_append, hhdr, hcnt, hbody]
  · have hb : ∀ k, k < 4 → ∀ d : ℕ,
        (meshToSTL o enc mesh).getD (80 + k) d = (u32le (mesh.triVerts.length / 3)).getD k d := by
      intro k hk d
      simp only [meshToSTL]
      have hlt : 80 + k < (stlHeaderBytes ++ u32le (mesh.triVerts.length / 3)).length := by
        rw [hpre]; omega
      rw [List.getD_append _ _ _ _ hlt]
      have hle : stlHeaderBytes.length ≤ 80 + k := by rw [hhdr]; omega
      rw [List.getD_append_right _ _ _ _ hle, hhdr, Nat.add_sub_cancel_left]
    have h0 : (meshToSTL o enc mesh).getD 80 0
        = (u32le (mesh.triVerts.length / 3)).getD 0 0 := hb 0 (by omega) 0
    have e0 : (u32le (mesh.triVerts.length / 3)).getD 0 0
        = mesh.triVerts.length / 3 % 256 := rfl
    have e1 : (u32le (mesh.triVerts.length / 3)).getD 1 0
        = mesh.triVerts.length / 3 / 256 % 256 := rfl
    have e2 : (u32le (mesh.triVerts.length / 3)).getD 2 0
        = mesh.triVerts.length / 3 / 65536 % 256 := rfl
    have e3 : (u32le (mesh.triVerts.length / 3)).getD 3 0
        = mesh.triVerts.length / 3 / 16777216 % 256 := rfl
    simp only [decodeU32LE]
    rw [h0, hb 1 (by omega) 0, hb 2 (by omega) 0, hb 3 (by omega) 0, e0, e1, e2, e3]
    omega
  · intro t ht
    have hstep : ∀ k, k < 50 → ∀ d : ℕ,
        (meshToSTL o enc mesh).getD (84 + 50 * t + k) d =
          (triRecord o enc (stlVertices mesh) mesh.triVerts t).getD k d := by
      intro k hk d
      simp only [meshToSTL]
      have hle : (stlHeaderBytes ++ u32le (mesh.triVerts.length / 3)).length
          ≤ 84 + 50 * t + k := by rw [hpre]; omega
      rw [List.getD_append_right _ _ _ _ hle, hpre]
      have e1 : 84 + 50 * t + k - 84 = 50 * t + k := by omega
      rw [e1]
      have := flatMap_getD_const (triRecord o enc (stlVertices mesh) mesh.triVerts) 50
        (fun a => triRecord_length o enc _ _ a hl)
        (List.range (mesh.triVerts.length / 3)) t (by simpa using ht) k hk d
      rw [this, List.getElem_range]
    exact ⟨(hstep 48 (by omega) 7).trans (triRecord_attr o enc _ _ t 7 hl).1,
           (hstep 49 (by omega) 7).trans (triRecord_attr o enc _ _ t 7 hl).2⟩

/-- Witness for `c6_stl_layout`: a concrete one-triangle mesh and a
constant 4-byte encoder. -/
theorem c6_stl_layout_witness :
    (meshToSTL zeroOracle encZero oneTriMesh).length = 84 + 50 * (oneTriMesh.triVerts.length / 3) ∧
    decodeU32LE (meshToSTL zeroOracle encZero oneTriMesh) 80 = oneTriMesh.triVerts.length / 3 ∧
    ∀ t < oneTriMesh.triVerts.length / 3,
      (meshToSTL zeroOracle encZero oneTriMesh).getD (84 + 50 * t + 48) 7 = 0 ∧
      (meshToSTL zeroOracle encZero oneTriMesh).getD (84 + 50 * t + 49) 7 = 0 :=
  c6_stl_layout zeroOracle encZero oneTriMesh (fun _ => rfl) (by decide)

end Tradet
